import Mathlib

/-!
Verification of the elasticsearch backend of flask-msearch
(`flask_msearch/elasticsearch_backend.py`) against its specification.

The Python source is shallowly embedded: dictionaries become structures or
association lists, Python sets become lists used up to membership, `None`
becomes `Option`, and the elasticsearch client becomes an explicit
`EngineState` that records the remote calls issued.  Functions are
translated line by line from the source file; deviations forced by the
embedding are recorded in the doc comments.
-/

/-- Boolean list membership with `==`, modelling Python's `in` on a
set/list of strings (`field not in geo`, `pk.in_(result_set)`). -/
def memB (y : String) : List String → Bool
  | [] => false
  | a :: l => (y == a) || memB y l

theorem memB_iff_mem (y : String) (l : List String) : memB y l = true ↔ y ∈ l := by
  induction l with
  | nil => simp [memB]
  | cons a t ih => simp [memB, ih, List.mem_cons, beq_iff_eq]

/-- A record type (SQLAlchemy model class) as the backend reads it:
its table name and the optional declarative metadata attributes probed
with `getattr` in `Index.__init__` and `Schema._fields`.
`none` models an absent attribute. -/
structure Model where
  table_name : String
  /-- the `__msearch__` attribute -/
  msearch : Option (List String)
  /-- the `__searchable__` attribute -/
  searchable_attr : Option (List String)
  /-- the `__msearch__geo__` attribute -/
  msearch_geo : Option (List String)
  /-- the `__msearch_index__` attribute -/
  msearch_index : Option String
  /-- the `__msearch_primary_key__` attribute -/
  msearch_primary_key : Option String
deriving DecidableEq

/-- The `Index` object: the fields computed by `Index.__init__`
(lines 71-100 of the source).  Python `set(...)` is modelled as a list
used up to membership. -/
structure Index where
  doc_type : String
  pk : String
  searchable : List String
  geo : List String
  name : String
deriving DecidableEq

/-- `Index.__init__(client, model, doc_type, pk, name)`: the doc string of
the source notes the global `name` parameter is unused ("global index name
do nothing"); `self.name = self.doc_type`.  NOTE: the source computes the
geo set as `set(getattr(model, "__msearch__", getattr(model,
"__msearch__geo__", [])))` (lines 93-98), i.e. it falls back to
`__msearch__geo__` only when `__msearch__` is absent; this is embedded
as-is. -/
def Index.make (model : Model) (doc_type : String) (pk : String) (_name : String) : Index :=
  let dt := model.msearch_index.getD doc_type
  { doc_type := dt
    pk := model.msearch_primary_key.getD pk
    searchable := model.msearch.getD (model.searchable_attr.getD [])
    geo := model.msearch.getD (model.msearch_geo.getD [])
    name := dt }

/-- `Schema._fields` (lines 27-35): one `{'type': 'geo_point'}` entry per
declared `__msearch__geo__` field (nothing when the attribute is absent).
A `{'type': t}` singleton dict is modelled as the string `t`. -/
def Schema.geo_fields (model : Model) : List (String × String) :=
  (model.msearch_geo.getD []).map (fun item => (item, "geo_point"))

/-- The sqlalchemy type classes named in `fields_map`'s `type_map` plus the
`types.Text` default.  Among these seven concrete classes the
`issubclass` tests of the source reduce to identity (both `DateTime` and
`Date` are accepted by the first branch). -/
inductive SqlType where
  | Date
  | DateTime
  | Boolean
  | Integer
  | Float
  | Binary
  | Text
deriving DecidableEq

/-- The `type_map` dict lookup of `fields_map` (lines 41-51):
`type_map.get(field_type, types.Text)`. -/
def type_map (field_type : String) : SqlType :=
  if field_type = "date" then .Date
  else if field_type = "datetime" then .DateTime
  else if field_type = "boolean" then .Boolean
  else if field_type = "integer" then .Integer
  else if field_type = "float" then .Float
  else if field_type = "binary" then .Binary
  else .Text

/-- `Schema.fields_map(field_type)` (lines 37-66) on a string argument:
the `"primary"` marker short-circuits to keyword, any other string is
looked up in `type_map` (defaulting to `types.Text`) and run through the
`issubclass` chain.  A `{'type': t}` result dict is modelled as `t`. -/
def fields_map (field_type : String) : String :=
  if field_type = "primary" then "keyword"
  else
    match type_map field_type with
    | .DateTime => "date"
    | .Date => "date"
    | .Integer => "integer"
    | .Float => "float"
    | .Boolean => "boolean"
    | .Binary => "binary"
    | .Text => "text"

/-- C7: for every semantic type in {date, datetime, boolean, integer,
float, binary}, `fields_map` returns the corresponding engine type
declaration (date and datetime both map to date), and any unrecognized
type name falls through to text rather than failing. -/
theorem fields_map_semantic_types :
    fields_map "date" = "date"
    ∧ fields_map "datetime" = "date"
    ∧ fields_map "boolean" = "boolean"
    ∧ fields_map "integer" = "integer"
    ∧ fields_map "float" = "float"
    ∧ fields_map "binary" = "binary"
    ∧ ∀ s : String,
        s ∉ (["primary", "date", "datetime", "boolean", "integer", "float",
              "binary"] : List String) →
        fields_map s = "text" := by
  refine ⟨rfl, rfl, rfl, rfl, rfl, rfl, ?_⟩
  intro s hs
  simp only [List.mem_cons, List.not_mem_nil, or_false, not_or] at hs
  obtain ⟨h1, h2, h3, h4, h5, h6, h7⟩ := hs
  simp [fields_map, type_map, h1, h2, h3, h4, h5, h6, h7]

theorem fields_map_semantic_types_witness : fields_map "varchar" = "text" :=
  fields_map_semantic_types.2.2.2.2.2.2 "varchar" (by decide)

/-- C8: `fields_map` maps exactly the primary-key marker to keyword: the
primary-key branch precedes (and is disjoint from) every type-based
mapping, so the primary key maps to keyword regardless of any declared
semantic type, and no type-based branch produces keyword. -/
theorem fields_map_primary_keyword :
    ∀ field_type : String, fields_map field_type = "keyword" ↔ field_type = "primary" := by
  intro ft
  constructor
  · intro h
    by_cases hp : ft = "primary"
    · exact hp
    · exfalso
      simp only [fields_map, hp, if_false] at h
      cases hm : type_map ft <;> simp [hm] at h
  · intro h
    simp [fields_map, h]

/-- Python `fields or default` for an optional list argument: `None` and
the empty list are falsy. -/
def listOr (fields : Option (List String)) (default : List String) : List String :=
  match fields with
  | none => default
  | some [] => default
  | some fs => fs

/-- Python `limit or -1`: `None` and `0` are falsy. -/
def intOr (limit : Option Int) (default : Int) : Int :=
  match limit with
  | none => default
  | some n => if n == 0 then default else n

/-- Python truthiness of an optional string (`if geohash and ...`):
`None` and the empty string are falsy. -/
def truthyS (s : Option String) : Bool :=
  match s with
  | none => false
  | some v => !(v == "")

/-- The `query_string` dict built in `Query.msearch` (lines 232-237);
the `**kwargs` update of line 238 is not modelled (no claim passes
extra keyword arguments). -/
structure QueryString where
  fields : List String
  query : Option String
  default_operator : String
  analyze_wildcard : Bool
deriving DecidableEq

/-- Lines 232-237: `fields or [field for field in searchable if field not
in geo]`, `"OR" if or_ else "AND"`, `analyze_wildcard: True`. -/
def buildQueryString (ix : Index) (query : Option String) (fields : Option (List String))
    (or_ : Bool) : QueryString :=
  { fields := listOr fields (ix.searchable.filter (fun field => !memB field ix.geo))
    query := query
    default_operator := if or_ then "OR" else "AND"
    analyze_wildcard := true }

/-- The three shapes of engine query body built in `Query.msearch`:
`geoText` is lines 240-254 (`bool` with `must: {query_string}` and
`filter: {geo_distance: {distance, geofield: geohash}}`), `geoOnly` is
lines 256-270 (`bool` with `must: {match_all: {}}` and the same
`geo_distance` filter shape), `textOnly` is lines 272-277
(`{query: {query_string}, size}`). -/
inductive Body where
  | geoText (query_string : QueryString) (distance : String) (geofield : String) (geohash : String)
  | geoOnly (distance : String) (geofield : String) (geohash : String)
  | textOnly (query_string : QueryString) (size : Int)
deriving DecidableEq

/-- The query-body construction of `Query.msearch` (lines 226-277): the
branch on `geohash and geofield and query` picks the combined bool query
with the hardcoded `"50km"` radius, the branch on
`geohash and geofield and not query` picks match-all filtered at the
caller's `geodistance`, and otherwise the plain `query_string` body with
`size: limit or -1` is used. -/
def buildBody (ix : Index) (query : Option String) (fields : Option (List String))
    (limit : Option Int) (or_ : Bool) (geohash : Option String) (geofield : Option String)
    (geodistance : String) : Body :=
  let query_string := buildQueryString ix query fields or_
  if truthyS geohash && truthyS geofield && truthyS query then
    .geoText query_string "50km" (geofield.getD "") (geohash.getD "")
  else if truthyS geohash && truthyS geofield && !truthyS query then
    .geoOnly geodistance (geofield.getD "") (geohash.getD "")
  else
    .textOnly query_string (intOr limit (-1))

/-- Numeric kilometre value of a `"<n>km"` distance literal (the value of
its leading digit run), used to compare the two radius defaults of the
source. -/
def kmNat (s : String) : Nat :=
  (s.data.takeWhile (fun c => c.isDigit)).foldl (fun n c => 10 * n + (c.toNat - 48)) 0

/-- A model declaring `__searchable__ = ['title', 'location']` and
`__msearch__geo__ = ['location']` (no `__msearch__` attribute), used as a
concrete record type in several counterexamples and witnesses. -/
def modelGeo : Model :=
  { table_name := "post"
    msearch := none
    searchable_attr := some ["title", "location"]
    msearch_geo := some ["location"]
    msearch_index := none
    msearch_primary_key := none }

/-- The `Index` the backend builds for `modelGeo` (doc_type "post",
default primary key "id", global index name "msearch"). -/
def ixGeo : Index := Index.make modelGeo "post" "id" "msearch"

/-- C1 counterexample: the claim that the generated `query_string`
`fields` entry never contains a name from the Index's geo set fails when
the caller passes a field list that explicitly contains the geo field:
for `ixGeo` (geo set `["location"]`) and explicit fields
`["title", "location"]`, `"location"` appears in the generated field
list. -/
theorem explicit_geo_field_not_excluded :
    "location" ∈ (buildQueryString ixGeo (some "hello") (some ["title", "location"]) false).fields
    ∧ "location" ∈ ixGeo.geo := by
  decide

/-- C1 (amended): the geo exclusion applies exactly to the default field
list: when the caller supplies no field list (`None` or an empty list),
the generated `query_string` field list never contains a name from the
Index's geo set. -/
theorem default_fields_exclude_geo (ix : Index) (query : Option String) (or_ : Bool)
    (fields : Option (List String)) (hf : fields = none ∨ fields = some [])
    (f : String) (hmem : f ∈ (buildQueryString ix query fields or_).fields) :
    f ∉ ix.geo := by
  intro hgeo
  have hdef : (buildQueryString ix query fields or_).fields
      = ix.searchable.filter (fun field => !memB field ix.geo) := by
    rcases hf with h | h <;> simp [buildQueryString, listOr, h]
  rw [hdef] at hmem
  have := (List.mem_filter.mp hmem).2
  rw [Bool.not_eq_eq_eq_not, Bool.not_true] at this
  exact absurd ((memB_iff_mem f ix.geo).mpr hgeo) (by simp [this])

theorem default_fields_exclude_geo_witness : "title" ∉ ixGeo.geo :=
  default_fields_exclude_geo ixGeo (some "hello") false none (Or.inl rfl) "title" (by decide)

/-- A model declaring `__msearch__ = ['title', 'body']` and
`__msearch__geo__ = ['location']`: because `Index.__init__` reads the geo
set from `__msearch__` when that attribute exists, this model exhibits
the geo-attribute slip. -/
def modelMsearch : Model :=
  { table_name := "post"
    msearch := some ["title", "body"]
    searchable_attr := none
    msearch_geo := some ["location"]
    msearch_index := none
    msearch_primary_key := none }

/-- C2: evaluation at the failing input.  For `modelMsearch` (declared
searchable set `['title', 'body']`, declared geo-point set
`['location']`), with no geo parameters and no explicit field list the
generated field list is empty, although `"title"` is declared searchable
and is not a declared geo-point field — because `Index.make` sets the geo
attribute to the whole `__msearch__` list instead of `__msearch__geo__`. -/
theorem geo_attr_slip_empties_default_fields :
    (buildQueryString (Index.make modelMsearch "post" "id" "msearch") (some "hello") none
      false).fields = []
    ∧ (Index.make modelMsearch "post" "id" "msearch").geo = ["title", "body"]
    ∧ "title" ∈ modelMsearch.msearch.getD []
    ∧ "title" ∉ modelMsearch.msearch_geo.getD [] := by
  decide

/-- A filter criterion added to the SQLAlchemy query by `Query.msearch`:
`sqlalchemy.text('null')` (line 280) or `pk.in_(result_set)` (line 284). -/
inductive Criterion where
  | textNull
  | pkIn (ids : List String)
deriving DecidableEq

/-- Row-level semantics of a filter criterion, on the row's primary-key
value (engine ids and primary-key values are strings): SQL `WHERE NULL`
is not true for any row, `IN` is set membership. -/
def Criterion.matches : Criterion → String → Bool
  | .textNull, _ => false
  | .pkIn ids, pkv => memB pkv ids

/-- The SQLAlchemy query object `self` of `Query.msearch`: accumulated
filter criteria and `order_by` criteria (each ordering criterion is the
hit-id list whose `case` mapping it ranks by). -/
structure DBQuery where
  filters : List Criterion
  order : List (List String)
deriving DecidableEq

/-- `self.filter(criterion)`: appends a filter criterion. -/
def DBQuery.filter (self : DBQuery) (f : Criterion) : DBQuery :=
  { self with filters := self.filters ++ [f] }

/-- `query.order_by(case({id: index}, value=pk))`: appends an ordering
criterion holding the ranked id list. -/
def DBQuery.order_by (self : DBQuery) (ids : List String) : DBQuery :=
  { self with order := self.order ++ [ids] }

/-- Index of the LAST occurrence of `y` in `ids`, mirroring the dict
comprehension `{r["_id"]: index for index, r in enumerate(results)}`
(line 288), where a later binding of the same id overwrites an earlier
one. -/
def lastIdx (ids : List String) (y : String) : Option Nat :=
  match ids with
  | [] => none
  | a :: l =>
    match lastIdx l y with
    | some i => some (i + 1)
    | none => if a == y then some 0 else none

/-- Rank of a primary-key value under the `case(..., value=pk)` ordering
expression: its index in the hit list's rank dict.  A value absent from
the dict gets SQL NULL from `case`; it is placed after every ranked value
(the choice is immaterial: every row passing the `in_` filter is
ranked). -/
def caseRank (ids : List String) (y : String) : Nat :=
  (lastIdx ids y).getD ids.length

/-- Insert `a` into `l` before the first element of rank at least
`rank a`: one step of the ordering semantics of SQL `ORDER BY`. -/
def orderedInsertRank (rank : String → Nat) (a : String) : List String → List String
  | [] => [a]
  | b :: l => if rank a ≤ rank b then a :: b :: l else b :: orderedInsertRank rank a l

/-- Stable sort by rank (insertion sort): the ordering semantics of one
SQL `ORDER BY` criterion. -/
def sortByRank (rank : String → Nat) : List String → List String
  | [] => []
  | b :: l => orderedInsertRank rank b (sortByRank rank l)

/-- Apply the accumulated `order_by` criteria: `ORDER BY c1, c2, ...` is
a stable sort by the last criterion first, then by the first criterion,
so the first criterion dominates. -/
def applyOrder (crits : List (List String)) (rows : List String) : List String :=
  match crits with
  | [] => rows
  | c :: cs => sortByRank (caseRank c) (applyOrder cs rows)

/-- Run a query against the original store: `base` is the table's rows
(primary-key values, in store order); rows must pass every filter
criterion, then the `order_by` criteria are applied. -/
def runQuery (base : List String) (q : DBQuery) : List String :=
  applyOrder q.order (base.filter (fun r => q.filters.all (fun f => f.matches r)))

/-- The result-mapping tail of `Query.msearch` (lines 278-290): `hits` is
the `['hits']['hits']` id list of the engine response.  An empty hit list
yields `self.filter(text('null'))`; otherwise the query is filtered to
`pk.in_(result_set)` and, under `rank_order`, ordered by the
rank-preserving `case` expression. -/
def msearchResultQuery (self : DBQuery) (hits : List String) (rank_order : Bool) : DBQuery :=
  if hits.isEmpty then self.filter .textNull
  else
    let result_query := self.filter (.pkIn hits)
    if rank_order then result_query.order_by hits else result_query

/-- The whole of `Query.msearch` (lines 216-290): builds the engine query
body and, given the engine's hit-id response to it, the resulting store
query. -/
def DBQuery.msearch (self : DBQuery) (ix : Index) (query : Option String)
    (fields : Option (List String)) (limit : Option Int) (or_ : Bool) (rank_order : Bool)
    (geohash : Option String) (geofield : Option String) (geodistance : String)
    (hits : List String) : Body × DBQuery :=
  (buildBody ix query fields limit or_ geohash geofield geodistance,
   msearchResultQuery self hits rank_order)

theorem applyOrder_nil (crits : List (List String)) : applyOrder crits [] = [] := by
  induction crits with
  | nil => rfl
  | cons c cs ih => simp [applyOrder, ih, sortByRank]

/-- C4: on an empty engine hit list, `Query.msearch` returns the original
store query restricted by the `text('null')` filter, and that query
matches zero records of any store — never the unrestricted original
query. -/
theorem empty_hits_match_zero_records (self : DBQuery) (rank_order : Bool) :
    msearchResultQuery self [] rank_order = self.filter Criterion.textNull
    ∧ ∀ base : List String, runQuery base (msearchResultQuery self [] rank_order) = [] := by
  refine ⟨rfl, ?_⟩
  intro base
  show runQuery base (self.filter Criterion.textNull) = []
  have hfil : base.filter
      (fun r => (self.filters ++ [Criterion.textNull]).all (fun f => f.matches r)) = [] := by
    apply List.eq_nil_of_length_eq_zero
    rw [List.length_eq_zero]
    apply List.filter_eq_nil_iff.mpr
    intro a _
    simp [List.all_append, Criterion.matches]
  simp only [runQuery, DBQuery.filter, hfil]
  exact applyOrder_nil _

theorem lastIdx_eq_none_iff (ids : List String) (y : String) :
    lastIdx ids y = none ↔ y ∉ ids := by
  induction ids with
  | nil => simp [lastIdx]
  | cons a l ih =>
    simp only [lastIdx, List.mem_cons]
    cases hl : lastIdx l y with
    | some i => simp [hl, (ih.not).mp (by simp [hl])]
    | none =>
      by_cases hay : a = y
      · simp [hay]
      · have hya : ¬y = a := fun hya => hay hya.symm
        simp [beq_eq_false_iff_ne.mpr hay, ih.mp hl, hya]

theorem caseRank_cons_self (h : String) (hs : List String) (hh : h ∉ hs) :
    caseRank (h :: hs) h = 0 := by
  simp [caseRank, lastIdx, (lastIdx_eq_none_iff hs h).mpr hh]

theorem caseRank_cons_mem (h y : String) (hs : List String) (hy : y ∈ hs) :
    caseRank (h :: hs) y = caseRank hs y + 1 := by
  cases hl : lastIdx hs y with
  | none => exact absurd hy ((lastIdx_eq_none_iff hs y).mp hl)
  | some i => simp [caseRank, lastIdx, hl]

theorem orderedInsertRank_of_le (rank : String → Nat) (x : String) (l : List String)
    (h : ∀ b ∈ l, rank x ≤ rank b) : orderedInsertRank rank x l = x :: l := by
  cases l with
  | nil => rfl
  | cons b t => simp [orderedInsertRank, h b (List.mem_cons_self b t)]

theorem orderedInsertRank_congr (r1 r2 : String → Nat) (x : String) (l : List String)
    (h : ∀ y ∈ l, (r1 x ≤ r1 y ↔ r2 x ≤ r2 y)) :
    orderedInsertRank r1 x l = orderedInsertRank r2 x l := by
  induction l with
  | nil => rfl
  | cons b t ih =>
    simp only [orderedInsertRank]
    by_cases hb : r1 x ≤ r1 b
    · rw [if_pos hb, if_pos ((h b (List.mem_cons_self b t)).mp hb)]
    · rw [if_neg hb, if_neg (fun h2 => hb ((h b (List.mem_cons_self b t)).mpr h2)),
        ih (fun y hy => h y (List.mem_cons_of_mem b hy))]

theorem orderedInsertRank_caseRank_filter :
    ∀ (hits : List String) (x : String) (p : String → Bool),
      hits.Nodup → x ∈ hits → p x = false →
      orderedInsertRank (caseRank hits) x (hits.filter p)
        = hits.filter (fun y => (y == x) || p y) := by
  intro hits
  induction hits with
  | nil => intro x p _ hx _; exact absurd hx (List.not_mem_nil x)
  | cons h hs ih =>
    intro x p hnd hx hpx
    have hh : h ∉ hs := (List.nodup_cons.mp hnd).1
    have hnds : hs.Nodup := (List.nodup_cons.mp hnd).2
    by_cases hxh : x = h
    · subst hxh
      have hfl : (x :: hs).filter p = hs.filter p := by
        simp [List.filter_cons, hpx]
      have hfr : (x :: hs).filter (fun y => (y == x) || p y)
          = x :: hs.filter p := by
        rw [List.filter_cons_of_pos (by simp)]
        congr 1
        apply List.filter_congr
        intro y hy
        have : ¬y = x := fun hyx => hh (hyx ▸ hy)
        simp [beq_eq_false_iff_ne.mpr this]
      rw [hfl, hfr]
      apply orderedInsertRank_of_le
      intro b _
      rw [caseRank_cons_self x hs hh]
      exact Nat.zero_le _
    · have hxs : x ∈ hs := (List.mem_cons.mp hx).resolve_left hxh
      have hcongr : orderedInsertRank (caseRank (h :: hs)) x (hs.filter p)
          = orderedInsertRank (caseRank hs) x (hs.filter p) := by
        apply orderedInsertRank_congr
        intro y hy
        have hys : y ∈ hs := (List.mem_filter.mp hy).1
        rw [caseRank_cons_mem h x hs hxs, caseRank_cons_mem h y hs hys]
        exact Nat.add_le_add_iff_right
      by_cases hph : p h = true
      · have hfl : (h :: hs).filter p = h :: hs.filter p := List.filter_cons_of_pos hph
        have hfr : (h :: hs).filter (fun y => (y == x) || p y)
            = h :: hs.filter (fun y => (y == x) || p y) := by
          apply List.filter_cons_of_pos
          simp [hph]
        rw [hfl, hfr]
        have hnotle : ¬caseRank (h :: hs) x ≤ caseRank (h :: hs) h := by
          rw [caseRank_cons_mem h x hs hxs, caseRank_cons_self h hs hh]
          exact Nat.not_succ_le_zero _
        simp only [orderedInsertRank, if_neg hnotle]
        rw [hcongr, ih x p hnds hxs hpx]
      · have hph' : p h = false := Bool.eq_false_iff.mpr hph
        have hfl : (h :: hs).filter p = hs.filter p := List.filter_cons_of_neg (by simp [hph'])
        have hfr : (h :: hs).filter (fun y => (y == x) || p y)
            = hs.filter (fun y => (y == x) || p y) := by
          apply List.filter_cons_of_neg
          have : ¬h = x := fun hhx => hxh hhx.symm
          simp [hph', beq_eq_false_iff_ne.mpr this]
        rw [hfl, hfr, hcongr, ih x p hnds hxs hpx]

theorem sortByRank_caseRank_filter (hits : List String) :
    ∀ l : List String, hits.Nodup → l.Nodup → (∀ x ∈ l, x ∈ hits) →
      sortByRank (caseRank hits) l = hits.filter (fun y => memB y l) := by
  intro l
  induction l with
  | nil =>
    intro _ _ _
    have : (fun y => memB y ([] : List String)) = fun _ => false := by
      funext y; rfl
    simp [sortByRank, this]
  | cons x xs ih =>
    intro hnd hlnd hsub
    have hxnotxs : x ∉ xs := (List.nodup_cons.mp hlnd).1
    have hxsnd : xs.Nodup := (List.nodup_cons.mp hlnd).2
    have hxhits : x ∈ hits := hsub x (List.mem_cons_self x xs)
    have hrec : sortByRank (caseRank hits) xs = hits.filter (fun y => memB y xs) :=
      ih hnd hxsnd (fun y hy => hsub y (List.mem_cons_of_mem x hy))
    have hpx : memB x xs = false := by
      cases hmb : memB x xs with
      | false => rfl
      | true => exact absurd ((memB_iff_mem x xs).mp hmb) hxnotxs
    calc sortByRank (caseRank hits) (x :: xs)
        = orderedInsertRank (caseRank hits) x (sortByRank (caseRank hits) xs) := rfl
      _ = orderedInsertRank (caseRank hits) x (hits.filter (fun y => memB y xs)) := by
          rw [hrec]
      _ = hits.filter (fun y => (y == x) || memB y xs) :=
          orderedInsertRank_caseRank_filter hits x (fun y => memB y xs) hnd hxhits hpx
      _ = hits.filter (fun y => memB y (x :: xs)) := rfl

/-- C5: on a non-empty hit list whose ids are the primary keys of
distinct store rows, `Query.msearch` with `rank_order` yields a query
whose result ordering is exactly the hit order (for hits
`[id3, id1, id2]`, exactly `id3, id1, id2`); without `rank_order` no
ordering criterion is added to the query. -/
theorem rank_order_follows_hits (base hits : List String)
    (hne : hits ≠ []) (hnd : hits.Nodup) (hbase : base.Nodup)
    (hsub : ∀ x ∈ hits, x ∈ base) :
    runQuery base (msearchResultQuery ⟨[], []⟩ hits true) = hits
    ∧ (msearchResultQuery ⟨[], []⟩ hits false).order = [] := by
  have hempty : hits.isEmpty = false := by
    cases hits with
    | nil => exact absurd rfl hne
    | cons a l => rfl
  constructor
  · have hq : msearchResultQuery ⟨[], []⟩ hits true
        = ⟨[Criterion.pkIn hits], [hits]⟩ := by
      simp [msearchResultQuery, hempty, DBQuery.filter, DBQuery.order_by]
    rw [hq]
    have hfil : base.filter
        (fun r => ([Criterion.pkIn hits]).all (fun f => f.matches r))
        = base.filter (fun r => memB r hits) := by
      apply List.filter_congr
      intro r _
      simp [Criterion.matches]
    show applyOrder [hits]
        (base.filter (fun r => ([Criterion.pkIn hits]).all (fun f => f.matches r))) = hits
    rw [hfil]
    show sortByRank (caseRank hits) (base.filter (fun r => memB r hits)) = hits
    have hsort := sortByRank_caseRank_filter hits (base.filter (fun r => memB r hits)) hnd
      (hbase.filter _)
      (fun y hy => (memB_iff_mem y hits).mp (List.mem_filter.mp hy).2)
    rw [hsort]
    apply List.filter_eq_self.mpr
    intro y hy
    apply (memB_iff_mem y _).mpr
    apply List.mem_filter.mpr
    exact ⟨hsub y hy, (memB_iff_mem y hits).mpr hy⟩
  · simp [msearchResultQuery, hempty, DBQuery.filter]

theorem rank_order_follows_hits_witness :
    runQuery ["1", "2", "3"] (msearchResultQuery ⟨[], []⟩ ["3", "1", "2"] true)
      = ["3", "1", "2"] :=
  (rank_order_follows_hits ["1", "2", "3"] ["3", "1", "2"] (by decide) (by decide)
    (by decide) (by decide)).1

/-- C9: with a geo filter (geohash + geofield) and a text query, the body
is the bool query requiring the text match AND the geo-distance filter,
at radius `"50km"`; the geo-only case at the parameter default
`geodistance="10km"` is match-everything filtered at `"10km"`; and 50km
is strictly wider than 10km. -/
theorem geo_text_bool_query_wider_radius (ix : Index) (q gh gf : String)
    (fields : Option (List String)) (limit : Option Int) (or_ : Bool)
    (hq : q ≠ "") (hgh : gh ≠ "") (hgf : gf ≠ "") :
    buildBody ix (some q) fields limit or_ (some gh) (some gf) "10km"
      = .geoText (buildQueryString ix (some q) fields or_) "50km" gf gh
    ∧ buildBody ix none fields limit or_ (some gh) (some gf) "10km"
      = .geoOnly "10km" gf gh
    ∧ kmNat "10km" < kmNat "50km" := by
  have h1 : (q == "") = false := beq_eq_false_iff_ne.mpr hq
  have h2 : (gh == "") = false := beq_eq_false_iff_ne.mpr hgh
  have h3 : (gf == "") = false := beq_eq_false_iff_ne.mpr hgf
  refine ⟨?_, ?_, by decide⟩
  · simp [buildBody, truthyS, h1, h2, h3]
  · simp [buildBody, truthyS, h2, h3]

theorem geo_text_bool_query_wider_radius_witness :
    buildBody ixGeo (some "hello") none none false (some "u4pruyd") (some "location") "10km"
      = .geoText (buildQueryString ixGeo (some "hello") none false) "50km" "location" "u4pruyd"
    ∧ buildBody ixGeo none none none false (some "u4pruyd") (some "location") "10km"
      = .geoOnly "10km" "location" "u4pruyd"
    ∧ kmNat "10km" < kmNat "50km" :=
  geo_text_bool_query_wider_radius ixGeo "hello" "u4pruyd" "location" none none false
    (by decide) (by decide) (by decide)

/-- C10: whenever a text query accompanies the geo filter, the
geo-distance radius is the hardcoded `"50km"`: the caller's `geodistance`
argument does not influence the generated body at all in that case, and
it is used only in the geo-only (no text) case. -/
theorem geodistance_ignored_when_text_present (ix : Index) (q gh gf gd gd' : String)
    (fields : Option (List String)) (limit : Option Int) (or_ : Bool)
    (hq : q ≠ "") (hgh : gh ≠ "") (hgf : gf ≠ "") :
    buildBody ix (some q) fields limit or_ (some gh) (some gf) gd
      = .geoText (buildQueryString ix (some q) fields or_) "50km" gf gh
    ∧ buildBody ix (some q) fields limit or_ (some gh) (some gf) gd
      = buildBody ix (some q) fields limit or_ (some gh) (some gf) gd'
    ∧ buildBody ix none fields limit or_ (some gh) (some gf) gd
      = .geoOnly gd gf gh := by
  have h1 : (q == "") = false := beq_eq_false_iff_ne.mpr hq
  have h2 : (gh == "") = false := beq_eq_false_iff_ne.mpr hgh
  have h3 : (gf == "") = false := beq_eq_false_iff_ne.mpr hgf
  refine ⟨?_, ?_, ?_⟩
  · simp [buildBody, truthyS, h1, h2, h3]
  · simp [buildBody, truthyS, h1, h2, h3]
  · simp [buildBody, truthyS, h2, h3]

theorem geodistance_ignored_when_text_present_witness :
    buildBody ixGeo (some "hello") none none false (some "u4pruyd") (some "location") "3km"
      = .geoText (buildQueryString ixGeo (some "hello") none false) "50km" "location" "u4pruyd"
    ∧ buildBody ixGeo (some "hello") none none false (some "u4pruyd") (some "location") "3km"
      = buildBody ixGeo (some "hello") none none false (some "u4pruyd") (some "location") "99km"
    ∧ buildBody ixGeo none none none false (some "u4pruyd") (some "location") "3km"
      = .geoOnly "3km" "location" "u4pruyd" :=
  geodistance_ignored_when_text_present ixGeo "hello" "u4pruyd" "location" "3km" "99km"
    none none false (by decide) (by decide) (by decide)

/-- A document-level remote call issued to the engine client.  Under
`es_version >= '6'` no `doc_type` kwarg is sent (`docType = none`);
`update` and `delete` carry `ignore=[404]`, which is part of the call
shape rather than modelled state. -/
inductive DocOp where
  | createDoc (index : String) (docType : Option String) (pkName : String) (pkv : String)
      (body : List (String × String))
  | updateDoc (index : String) (docType : Option String) (pkName : String) (pkv : String)
      (body : List (String × String))
  | deleteDoc (index : String) (docType : Option String) (pkName : String) (pkv : String)
  | refresh (index : String)
deriving DecidableEq

/-- The engine side of the elasticsearch client, as the backend observes
it: which index names exist, how many `indices.create` calls were issued,
and the document-level calls issued. -/
structure EngineState where
  existing : List String
  createCalls : Nat
  docOps : List DocOp
deriving DecidableEq

/-- `Index.init` (lines 102-106): if the engine index does not exist,
create it (the mappings body is derived from the schema; the model
records the create call and the resulting existence, which is all the
claims observe). -/
def Index.init (ix : Index) (eng : EngineState) : EngineState :=
  if memB ix.name eng.existing then eng
  else { eng with
          existing := ix.name :: eng.existing
          createCalls := eng.createCalls + 1 }

/-- The `ElasticSearch` backend state: the configured default primary key
and global index name (from `init_app`) and the `_indexs` cache, a dict
from table name to `Index` modelled as an association list where insertion
conses the new binding. -/
structure Backend where
  pk : String
  index_name : String
  indexs : List (String × Index)
deriving DecidableEq

/-- `ElasticSearch.index(model)` (lines 189-204): return the cached
`Index` for the model's table name, or construct one (which runs
`Index.init` against the engine) and cache it. -/
def ElasticSearch.index (be : Backend) (eng : EngineState) (model : Model) :
    Index × Backend × EngineState :=
  let name := model.table_name
  match be.indexs.lookup name with
  | some ix => (ix, be, eng)
  | none =>
    let ix := Index.make model name be.pk be.index_name
    (ix, { be with indexs := (name, ix) :: be.indexs }, ix.init eng)

/-- A record instance: its class plus its attribute values.  `attrs`
models `getattr(instance, field)`; `rels` models the value of
`relation_column(instance, field.split('.'))` keyed by the dotted path.
`relation_column` itself lives in `backends.py`, which is not part of the
sources here; per the spec it resolves a dotted field name through the
record's relation graph, so it is modelled as a lookup oracle. -/
structure Instance where
  model : Model
  attrs : List (String × String)
  rels : List (String × String)

/-- `getattr(instance, field)` for a plain field. -/
def Instance.getattr (inst : Instance) (field : String) : String :=
  (inst.attrs.lookup field).getD ""

/-- Modelled from the spec: `relation_column` (imported from
`backends.py`, not among the sources) resolves a dotted field path
through the record's relation graph; modelled as a lookup of the dotted
field in the instance's relation table. -/
def relation_column (inst : Instance) (field : String) : String :=
  (inst.rels.lookup field).getD ""

/-- `ElasticSearch.create_one_index(instance, update, delete, commit)`
(lines 160-187), at `es_version >= '6'` (`esGe6`): the contradictory
`update and delete` request raises `ValueError` first; otherwise the
`Index` is resolved, the searchable attribute dict is extracted (dotted
fields through `relation_column`), exactly one of delete/update/create is
issued, and `commit` triggers `indices.refresh`.  The returned `Except`
is the raised exception or normal return; the backend and engine states
are returned alongside.  The source's ValueError message uses the
contraction of "cannot"; it is rendered here without the contraction. -/
def create_one_index (be : Backend) (eng : EngineState) (esGe6 : Bool) (inst : Instance)
    (update : Bool) (delete : Bool) (commit : Bool) :
    Except String Unit × Backend × EngineState :=
  if update && delete then
    (.error "update and delete cannot work together", be, eng)
  else
    let r := ElasticSearch.index be eng inst.model
    let ix := r.1
    let be1 := r.2.1
    let eng1 := r.2.2
    let pk := ix.pk
    let pkv := inst.getattr pk
    let attrs := ix.searchable.map (fun field =>
      (field, if field.contains '.' then relation_column inst field else inst.getattr field))
    let dt : Option String := if esGe6 then none else some ix.doc_type
    let eng2 :=
      if delete then
        { eng1 with docOps := eng1.docOps ++ [.deleteDoc ix.name dt pk pkv] }
      else if update then
        { eng1 with docOps := eng1.docOps ++ [.updateDoc ix.name dt pk pkv attrs] }
      else
        { eng1 with docOps := eng1.docOps ++ [.createDoc ix.name dt pk pkv attrs] }
    let eng3 := if commit then { eng2 with docOps := eng2.docOps ++ [.refresh ix.name] } else eng2
    (.ok (), be1, eng3)

/-- C3: requesting `update=True` and `delete=True` together raises the
`ValueError` before any remote call: the backend state (including the
`_indexs` cache) and the engine state (existence, create calls, document
operations) are returned exactly as they were. -/
theorem update_and_delete_raises_before_remote_calls
    (be : Backend) (eng : EngineState) (esGe6 : Bool) (inst : Instance) (commit : Bool) :
    create_one_index be eng esGe6 inst true true commit
      = (.error "update and delete cannot work together", be, eng) := by
  rfl

/-- C6: resolving the index for the same model (same table name) twice
returns the identical cached `Index`, leaves the cache and the engine
untouched on the second resolution, and issues at most one
`indices.create` call across both resolutions. -/
theorem index_resolution_cached_single_create (be : Backend) (eng : EngineState)
    (model : Model) :
    (ElasticSearch.index (ElasticSearch.index be eng model).2.1
        (ElasticSearch.index be eng model).2.2 model)
      = ((ElasticSearch.index be eng model).1,
         (ElasticSearch.index be eng model).2.1,
         (ElasticSearch.index be eng model).2.2)
    ∧ (ElasticSearch.index be eng model).2.2.createCalls ≤ eng.createCalls + 1 := by
  cases hl : be.indexs.lookup model.table_name with
  | some ix =>
    constructor
    · simp [ElasticSearch.index, hl]
    · simp [ElasticSearch.index, hl]
  | none =>
    constructor
    · simp [ElasticSearch.index, hl, List.lookup]
    · simp only [ElasticSearch.index, hl, Index.init]
      by_cases hmem : memB (Index.make model model.table_name be.pk be.index_name).name
          eng.existing = true
      · simp [hmem]
      · simp [hmem]
